import Mathlib

/-!
# Verification of Negot (src/negot.js)

Shallow embedding of the content-negotiation dispatcher `Negot`:
a registry mapping MIME-type strings to generator functions, a public
registration operation `put`, and the dispatch operation `negotiate`.

Modelling conventions:
* A JS `Response` is the record of the fields the code reads or builds:
  `status`, `statusText`, `headers`, `body`.
* A generator (`Gen`) is a function from the request to a `GenResult`:
  either it raises (`fault`, the rejected-promise / thrown case caught by
  the `try`/`catch` blocks) or it returns a value, of which the code only
  observes whether it is a `Response` (`ret (some r)`) or not
  (`ret none`, covering `undefined` and every non-Response value).
* The backing `Map` is embedded as the lookup function
  `Registry = String → Option Gen`; `Map.get` is application and
  `Map.set` is pointwise update (`setSig`).
* JS string helpers used on line 71 of the source are embedded over the
  character list: `split(sep)[0]` of a one-character separator is the
  prefix of the string before the first occurrence of `sep`
  (`takeUntil`), and `trim()` drops whitespace from both ends (`jsTrim`).
* Throwing methods on mutable state are embedded in state-passing style:
  `put` returns the raised error message (if any) together with the
  registry after the call; a `negotiate`-style method that catches every
  internal fault is a total function into `Response`.
* `negotiateRun` additionally records, in order, every generator
  invocation the dispatch performs (`Call.primary mime` for the
  preferred-type lookup phase, `Call.fallback` for the wildcard phase),
  so that "the wildcard generator is / is not invoked" is expressible.
  `negotiate` is its response component.
-/

namespace Negot

/-- The fields of a JS `Response` that `negot.js` reads or constructs. -/
structure Response where
  status : Nat
  statusText : String
  headers : List (String × String)
  body : String
deriving DecidableEq

/-- The fields of a JS `Request` that `negot.js` reads: the value of the
`Accept` header (`none` when the header is absent, mirroring
`request.headers.get('Accept')` returning `null`) and the URL (used only
for logging, which the embedding drops). -/
structure Request where
  accept : Option String
  url : String
deriving DecidableEq

/-- Outcome of awaiting one generator invocation
(`await Promise.resolve(fn(request))`): a raised/rejected fault, or a
returned value of which the code only tests `instanceof Response`. -/
inductive GenResult where
  | fault : GenResult
  | ret : Option Response → GenResult
deriving DecidableEq

/-- A registered content generator. -/
def Gen : Type := Request → GenResult

/-- The backing `Map<string, generator>` (`#mimeSignatures`), as its
lookup function. -/
def Registry : Type := String → Option Gen

/-- `Map.prototype.set`: insert or replace the entry for `mimeType`. -/
def setSig (reg : Registry) (mimeType : String) (g : Gen) : Registry :=
  fun k => if k = mimeType then some g else reg k

/-- The empty `Map` the private field `#mimeSignatures` is initialised to. -/
def emptyRegistry : Registry := fun _ => none

/-- JS `s.split(c)[0]` for a one-character separator `c`: the prefix of
`s` strictly before the first occurrence of `c` (all of `s` when `c` does
not occur). -/
def takeUntil (sep : Char) (s : String) : String :=
  String.mk (s.toList.takeWhile (fun c => c != sep))

/-- JS `String.prototype.trim()`: remove whitespace from both ends. -/
def jsTrim (s : String) : String :=
  String.mk (((s.toList.dropWhile Char.isWhitespace).reverse.dropWhile
      Char.isWhitespace).reverse)

/-- Line 69: `request.headers.get('Accept') || 'application/json'`.
JS `||` takes the default both when the header is absent (`null`) and
when it is the empty string (both falsy). -/
def acceptOf (request : Request) : String :=
  match request.accept with
  | none => "application/json"
  | some s => if s = "" then "application/json" else s

/-- Line 71: `acceptHeader.split(',')[0].trim().split(';')[0]`. -/
def preferredOf (acceptHeader : String) : String :=
  takeUntil ';' (jsTrim (takeUntil ',' acceptHeader))

/-- The `preferredMimeType` that `negotiate` computes for a request
(lines 69–71). -/
def preferredType (request : Request) : String :=
  preferredOf (acceptOf request)

/-- `JSON.stringify({ error: msg })`. -/
def jsonError (msg : String) : String :=
  "\x7b\"error\":\"" ++ msg ++ "\"\x7d"

/-- The internal-error responses negotiate builds:
`new Response(JSON.stringify({error: msg}), {status: 500, headers:
{'Content-Type': 'application/json'}})` (default `statusText` is `""`). -/
def errorResponse (msg : String) : Response :=
  { status := 500, statusText := "",
    headers := [("Content-Type", "application/json")],
    body := jsonError msg }

/-- `JSON.stringify({ data: null })`. -/
def dataNullBody : String := "\x7b\"data\":null\x7d"

/-- The built-in wildcard generator installed by the constructor
(lines 27–33): for any request, return a 200 JSON response with body
`{"data": null}`. -/
def builtinWildcard : Gen := fun _ =>
  GenResult.ret (some
    { status := 200, statusText := "",
      headers := [("Content-Type", "application/json")],
      body := dataNullBody })

/-- Error message of the first `throw` in `put` (line 48). -/
def putMimeTypeError : String :=
  "[Negot.put] mimeType 必须是非空字符串，且不能为 \x27*\x27。"

/-- Error message of the second `throw` in `put` (line 51). -/
def putGeneratorError : String :=
  "[Negot.put] generatorFn 必须是一个函数。"

/-- The dynamically-typed `mimeType` argument of `put`: a JS string, or
any non-string value (collapsed, since the code only tests
`typeof mimeType !== 'string'`). -/
inductive MimeArg where
  | str : String → MimeArg
  | notStr : MimeArg
deriving DecidableEq

/-- The dynamically-typed `generatorFn` argument of `put`: a function, or
any non-function value (the code only tests
`typeof generatorFn !== 'function'`). -/
inductive GenArg where
  | fn : Gen → GenArg
  | notFn : GenArg

/-- Lines 46–55, `Negot.put`, in state-passing style: the first component
is the message of the raised `Error` (`none` when no error is raised),
the second the registry after the call.  Both `throw` statements precede
the `Map.set`, so on error the registry is returned as it was. -/
def put (reg : Registry) (mimeType : MimeArg) (generatorFn : GenArg) :
    Option String × Registry :=
  match mimeType with
  | MimeArg.notStr => (some putMimeTypeError, reg)
  | MimeArg.str s =>
    if s = "" ∨ s = "*" then (some putMimeTypeError, reg)
    else
      match generatorFn with
      | GenArg.notFn => (some putGeneratorError, reg)
      | GenArg.fn g => (none, setSig reg s g)

/-- Lines 23–34, the constructor: start from the empty `#mimeSignatures`
map and seed the wildcard via `this.put('*', builtinWildcard)`.  If that
call raises, construction raises (`Except.error`) and no instance
exists. -/
def construct : Except String Registry :=
  match put emptyRegistry (MimeArg.str "*") (GenArg.fn builtinWildcard) with
  | (some e, _) => Except.error e
  | (none, reg) => Except.ok reg

/-- One generator invocation performed by `negotiate`: `primary mime` is
the call to the generator found for the preferred MIME type (line 78),
`fallback` the call to the generator found under `'*'` (line 98). -/
inductive Call where
  | primary : String → Call
  | fallback : Call
deriving DecidableEq

/-- Lines 111–129, the finalisation of `negotiate`: if a `Response` was
produced, force a non-200 status to 200 (same body and headers, marker
status text), otherwise build the fatal 500 response. -/
def finalize : Option Response → Response
  | some generatedResponse =>
    if generatedResponse.status ≠ 200 then
      { status := 200, statusText := "OK (Forced by Negot)",
        headers := generatedResponse.headers,
        body := generatedResponse.body }
    else generatedResponse
  | none => errorResponse "内部服务器错误：无法生成响应"

/-- Lines 94–109, the wildcard fallback, entered when the primary phase
produced no `Response` (`generatedResponse` not an `instanceof Response`):
invoke the `'*'` generator if present; a fault there returns the
wildcard-level 500 immediately; otherwise its return value (checked by
`finalize` for being a `Response`) becomes the result.  `calls` is the
invocation log accumulated by the primary phase. -/
def fallbackStep (reg : Registry) (request : Request) (calls : List Call) :
    Response × List Call :=
  match reg "*" with
  | some wildcardSignatureFn =>
    match wildcardSignatureFn request with
    | GenResult.fault =>
      (errorResponse "通配符签名内部错误", calls ++ [Call.fallback])
    | GenResult.ret generatedResponse =>
      (finalize generatedResponse, calls ++ [Call.fallback])
  | none => (finalize none, calls)

/-- Lines 66–130, `Negot.negotiate`, instrumented with the list of
generator invocations it performs.  The primary phase looks up the
preferred MIME type; a fault there returns the matched-type 500
immediately (the wildcard is not consulted); a returned `Response` skips
the fallback; anything else falls back to the wildcard phase. -/
def negotiateRun (reg : Registry) (request : Request) :
    Response × List Call :=
  match reg (preferredType request) with
  | some signatureFn =>
    match signatureFn request with
    | GenResult.fault =>
      (errorResponse
          ("处理签名 " ++ preferredType request ++ " 时发生内部服务器错误"),
        [Call.primary (preferredType request)])
    | GenResult.ret r =>
      match r with
      | some resp =>
        (finalize (some resp), [Call.primary (preferredType request)])
      | none =>
        fallbackStep reg request [Call.primary (preferredType request)]
  | none => fallbackStep reg request []

/-- The response `Negot.negotiate` resolves to.  Totality of this
function is the embedding of "negotiate never raises to its caller":
every internal fault is caught and converted to a `Response`. -/
def negotiate (reg : Registry) (request : Request) : Response :=
  (negotiateRun reg request).1

/-- A generator that always faults (used as a concrete witness input). -/
def faultGen : Gen := fun _ => GenResult.fault

/-- A registry holding only the built-in wildcard entry: the state the
constructor is documented to produce (used as a concrete witness input). -/
def seededRegistry : Registry :=
  fun k => if k = "*" then some builtinWildcard else none

end Negot

namespace Negot

/-! ## Helper lemmas -/

/-- A produced `Response` is always finalised to status 200. -/
theorem finalize_some_status (r : Response) : (finalize (some r)).status = 200 := by
  unfold finalize
  by_cases h : r.status = 200 <;> simp [h]

/-- `negotiateRun` is insensitive to a change of request that preserves
the preferred MIME type and the behaviour of every registered generator. -/
theorem negotiateRun_ext (reg : Registry) (r1 r2 : Request)
    (hp : preferredType r1 = preferredType r2)
    (hg : ∀ k g, reg k = some g → g r1 = g r2) :
    negotiateRun reg r1 = negotiateRun reg r2 := by
  have hfb : ∀ calls, fallbackStep reg r1 calls = fallbackStep reg r2 calls := by
    intro calls
    cases hw : reg "*" with
    | none => simp [fallbackStep, hw]
    | some w => simp [fallbackStep, hw, hg "*" w hw]
  cases hm : reg (preferredType r2) with
  | none => simp [negotiateRun, hp, hm, hfb]
  | some g =>
    have hgg := hg _ g hm
    cases hr : g r2 with
    | fault => simp [negotiateRun, hp, hm, hgg, hr]
    | ret r =>
      cases r with
      | some resp => simp [negotiateRun, hp, hm, hgg, hr]
      | none => simp [negotiateRun, hp, hm, hgg, hr, hfb]

end Negot

namespace Negot

/-! ## C1: construction and the wildcard seed -/

/-- **C1** (code_bug evidence).  The claim says construction succeeds and
seeds the reserved wildcard key `'*'` with the built-in default
generator.  In the code, the constructor seeds the wildcard through the
public `put`, but `put` rejects the wildcard key (`mimeType === '*'`) and
throws, so `new Negot()` always raises the mimeType error and the
wildcard entry is never seeded. -/
theorem construct_throws :
    construct = Except.error putMimeTypeError := rfl

end Negot

namespace Negot

/-! ## C8: validation in `put` -/

/-- C8: `put` raises an InvalidArgument-style error exactly when the
media type is not a string, is empty, or is the wildcard token, or when
the generator argument is not callable; and whenever it raises, the
registry is unchanged (both `throw` statements precede the `Map.set`). -/
theorem put_invalid_iff (reg : Registry) (m : MimeArg) (g : GenArg) :
    ((put reg m g).1 ≠ none ↔
      (m = MimeArg.notStr ∨ m = MimeArg.str "" ∨ m = MimeArg.str "*"
        ∨ g = GenArg.notFn))
    ∧ ((put reg m g).1 ≠ none → (put reg m g).2 = reg) := by
  cases m with
  | notStr => cases g <;> simp [put]
  | str s =>
    cases g with
    | fn gf => by_cases hs : s = "" ∨ s = "*" <;> simp [put, hs]
    | notFn => by_cases hs : s = "" ∨ s = "*" <;> simp [put, hs]

/-- Witness for C8: registering under the wildcard key on the seeded
registry raises and leaves the registry unchanged. -/
theorem put_invalid_iff_witness :
    (put seededRegistry (MimeArg.str "*") (GenArg.fn builtinWildcard)).1 ≠ none
    ∧ (put seededRegistry (MimeArg.str "*") (GenArg.fn builtinWildcard)).2
      = seededRegistry := by
  have h := put_invalid_iff seededRegistry (MimeArg.str "*")
    (GenArg.fn builtinWildcard)
  have h1 := h.1.mpr (Or.inr (Or.inr (Or.inl rfl)))
  exact ⟨h1, h.2 h1⟩

/-! ## C3: a matched-type fault short-circuits dispatch -/

/-- C3: when the preferred MIME type has a registered generator and that
generator faults, `negotiate` terminates immediately with the status-500
response whose JSON body names the failing media type, and the only
generator invocation performed is the primary one (the wildcard is not
invoked). -/
theorem fault_short_circuits (reg : Registry) (request : Request) (g : Gen)
    (hm : reg (preferredType request) = some g)
    (hf : g request = GenResult.fault) :
    negotiateRun reg request =
      (errorResponse
          ("处理签名 " ++ preferredType request ++ " 时发生内部服务器错误"),
        [Call.primary (preferredType request)]) := by
  simp [negotiateRun, hm, hf]

/-- A registry holding a faulting generator under `text/html` besides the
built-in wildcard (concrete witness input). -/
def faultRegistry : Registry := fun k =>
  if k = "text/html" then some faultGen
  else if k = "*" then some builtinWildcard else none

/-- Witness for C3 at a concrete registry and request. -/
theorem fault_short_circuits_witness :
    negotiateRun faultRegistry { accept := some "text/html", url := "u" } =
      (errorResponse "处理签名 text/html 时发生内部服务器错误",
        [Call.primary "text/html"]) := by
  have h := fault_short_circuits faultRegistry
    { accept := some "text/html", url := "u" } faultGen rfl rfl
  exact h.trans (by decide)

/-! ## C9: a literal `*` preference matches the wildcard entry in the
primary phase -/

/-- C9: when the extracted preferred type is the literal string `*`, the
primary registry lookup finds the wildcard entry itself, so a fault there
produces the matched-type 500 response naming `*` (not the wildcard-level
one, whose body is `通配符签名内部错误`), and only the primary invocation
happens. -/
theorem wildcard_primary_match (reg : Registry) (request : Request) (g : Gen)
    (hp : preferredType request = "*")
    (hw : reg "*" = some g)
    (hf : g request = GenResult.fault) :
    negotiateRun reg request =
      (errorResponse "处理签名 * 时发生内部服务器错误", [Call.primary "*"]) := by
  simp [negotiateRun, hp, hw, hf]

/-- A registry holding a faulting generator at the wildcard key
(concrete witness input; reachable only against the spec's intended
state space, the code's own constructor cannot build any instance). -/
def faultWildcardRegistry : Registry :=
  fun k => if k = "*" then some faultGen else none

/-- Witness for C9: a request whose Accept header is `*`. -/
theorem wildcard_primary_match_witness :
    negotiateRun faultWildcardRegistry { accept := some "*", url := "u" } =
      (errorResponse "处理签名 * 时发生内部服务器错误", [Call.primary "*"]) :=
  wildcard_primary_match faultWildcardRegistry
    { accept := some "*", url := "u" } faultGen (by decide) rfl rfl

/-! ## C4: status coercion to 200 -/

/-- C4: when the generator registered for the preferred type returns a
`Response`, `negotiate` returns it unmodified if its status is exactly
200, and otherwise returns a response with the same body and headers,
status forced to 200 and the marker status text `OK (Forced by Negot)`. -/
theorem status_coercion (reg : Registry) (request : Request) (g : Gen)
    (r : Response)
    (hm : reg (preferredType request) = some g)
    (hr : g request = GenResult.ret (some r)) :
    negotiate reg request =
      if r.status = 200 then r
      else { status := 200, statusText := "OK (Forced by Negot)",
             headers := r.headers, body := r.body } := by
  by_cases h : r.status = 200 <;>
    simp [negotiate, negotiateRun, hm, hr, finalize, h]

/-- A 404 response and a generator returning it (concrete witness input). -/
def resp404 : Response :=
  { status := 404, statusText := "Not Found",
    headers := [("X-Test", "y")], body := "missing" }

/-- Generator returning the 404 response. -/
def gen404 : Gen := fun _ => GenResult.ret (some resp404)

/-- Registry for the C4 witness. -/
def coercionRegistry : Registry := fun k =>
  if k = "text/html" then some gen404
  else if k = "*" then some builtinWildcard else none

/-- Witness for C4: a 404 from the matched generator comes back with the
same body and headers, status 200 and the marker status text. -/
theorem status_coercion_witness :
    negotiate coercionRegistry { accept := some "text/html", url := "u" } =
      { status := 200, statusText := "OK (Forced by Negot)",
        headers := [("X-Test", "y")], body := "missing" } := by
  have h := status_coercion coercionRegistry
    { accept := some "text/html", url := "u" } gen404 resp404 rfl rfl
  exact h.trans (by decide)

/-! ## C6: fallback to the built-in wildcard -/

/-- C6: when the preferred type has no registered generator and the
wildcard entry holds the built-in generator, `negotiate` performs exactly
the wildcard invocation and returns its 200 response with JSON body
`\x7b"data": null\x7d` and content-type `application/json`. -/
theorem fallback_default (reg : Registry) (request : Request)
    (hm : reg (preferredType request) = none)
    (hw : reg "*" = some builtinWildcard) :
    negotiateRun reg request =
      ({ status := 200, statusText := "",
         headers := [("Content-Type", "application/json")],
         body := dataNullBody }, [Call.fallback]) := by
  simp [negotiateRun, hm, fallbackStep, hw, builtinWildcard, finalize]

/-- Witness for C6: a request with no Accept header against the seeded
registry, which has no `application/json` entry. -/
theorem fallback_default_witness :
    negotiateRun seededRegistry { accept := none, url := "u" } =
      ({ status := 200, statusText := "",
         headers := [("Content-Type", "application/json")],
         body := dataNullBody }, [Call.fallback]) :=
  fallback_default seededRegistry { accept := none, url := "u" } rfl rfl

/-! ## C2: always one response, 200 unless a generator faults -/

/-- C2: over registry states whose wildcard entry holds the built-in
generator (the state the spec's invariant prescribes; the built-in never
faults and always returns a 200 response), `negotiate` — a total
function into `Response`, which embeds that it never raises and yields
exactly one response-like value — returns status 500 exactly when the
generator matched for the preferred type faults, and status 200 in every
other case.  With this wildcard entry a wildcard-level fault cannot
occur, so the matched-generator fault condition is exactly the claim's
"a matched-type or wildcard generator faults". -/
theorem negotiate_status_iff (reg : Registry) (request : Request)
    (hw : reg "*" = some builtinWildcard) :
    ((negotiate reg request).status = 500 ↔
      ∃ g, reg (preferredType request) = some g
        ∧ g request = GenResult.fault)
    ∧ ((negotiate reg request).status = 200 ↔
      ¬ ∃ g, reg (preferredType request) = some g
        ∧ g request = GenResult.fault) := by
  cases hm : reg (preferredType request) with
  | none =>
    have hs : (negotiate reg request).status = 200 := by
      simp [negotiate, negotiateRun, hm, fallbackStep, hw, builtinWildcard,
        finalize]
    have hnex : ¬ ∃ g, (none : Option Gen) = some g
        ∧ g request = GenResult.fault := by
      rintro ⟨g, hg, -⟩
      exact Option.noConfusion hg
    exact ⟨iff_of_false (by rw [hs]; decide) hnex, iff_of_true hs hnex⟩
  | some g =>
    cases hr : g request with
    | fault =>
      have hs : (negotiate reg request).status = 500 := by
        simp [negotiate, negotiateRun, hm, hr, errorResponse]
      have hex : ∃ g', (some g : Option Gen) = some g'
          ∧ g' request = GenResult.fault := ⟨g, rfl, hr⟩
      exact ⟨iff_of_true hs hex,
        iff_of_false (by rw [hs]; decide) (not_not_intro hex)⟩
    | ret o =>
      have hnex : ¬ ∃ g', (some g : Option Gen) = some g'
          ∧ g' request = GenResult.fault := by
        rintro ⟨g', hg', hf'⟩
        injection hg' with h
        subst h
        rw [hr] at hf'
        exact GenResult.noConfusion hf'
      have hs : (negotiate reg request).status = 200 := by
        cases o with
        | some resp =>
          simp [negotiate, negotiateRun, hm, hr, finalize_some_status]
        | none =>
          simp [negotiate, negotiateRun, hm, hr, fallbackStep, hw,
            builtinWildcard, finalize]
      exact ⟨iff_of_false (by rw [hs]; decide) hnex, iff_of_true hs hnex⟩

/-- Witness for C2: on the seeded registry a request with no Accept
header resolves with status 200. -/
theorem negotiate_status_iff_witness :
    (negotiate seededRegistry { accept := none, url := "u" }).status = 200 := by
  have h := negotiate_status_iff seededRegistry
    { accept := none, url := "u" } rfl
  refine h.2.mpr ?_
  rintro ⟨g, hg, -⟩
  rw [show preferredType { accept := none, url := "u" } = "application/json"
    from by decide] at hg
  rw [show seededRegistry "application/json" = none from rfl] at hg
  exact Option.noConfusion hg

/-! ## C5: preference extraction -/

/-- The extraction rule exactly as the claim words it, with no trimming:
the first comma-separated candidate, with everything from the first
`;` onward stripped.  Spec-side definition, for comparison with the
code's `preferredOf` (which also calls `trim()` between the two steps). -/
def specPreferredNoTrim (acceptHeader : String) : String :=
  takeUntil ';' (takeUntil ',' acceptHeader)

/-- C5 counterexample: on the header value `" text/html"` (leading
space) the code extracts `"text/html"` — it trims the candidate — while
the claim's formula keeps the space, so the claim's description of the
extraction is not the code's. -/
theorem preferred_parsing_counterexample :
    preferredOf " text/html" ≠ specPreferredNoTrim " text/html" := by decide

/-- If `takeWhile` stops strictly inside `l₁`, appending `l₂` cannot
change its result. -/
theorem takeWhile_append_of_ne (p : Char → Bool) (l₁ l₂ : List Char)
    (h : l₁.takeWhile p ≠ l₁) :
    (l₁ ++ l₂).takeWhile p = l₁.takeWhile p := by
  induction l₁ with
  | nil => simp at h
  | cons a l ih =>
    by_cases hp : p a
    · simp only [List.cons_append, List.takeWhile_cons_of_pos hp] at *
      have hne : l.takeWhile p ≠ l := fun he => h (by rw [he])
      rw [ih hne]
    · simp [List.takeWhile_cons_of_neg hp]

/-- C5 amended: the extracted preferred type is the first comma-separated
candidate, trimmed of surrounding whitespace, with everything from the
first `;` onward then stripped; in particular the header value
`text/html;q=0.9, application/json` yields exactly `text/html`, and the
extraction never consults anything after the first comma (any
continuation after the comma yields the same preferred type). -/
theorem preferred_parsing_amended :
    (∀ s : String,
      preferredOf s = takeUntil ';' (jsTrim (takeUntil ',' s)))
    ∧ preferredOf "text/html;q=0.9, application/json" = "text/html"
    ∧ ∀ rest : String,
        preferredOf ("text/html;q=0.9," ++ rest) = "text/html" := by
  refine ⟨fun s => rfl, by decide, ?_⟩
  intro rest
  have hlist : ("text/html;q=0.9," ++ rest).toList
      = "text/html;q=0.9,".toList ++ rest.toList := by
    cases rest
    rfl
  have h1 : takeUntil ',' ("text/html;q=0.9," ++ rest) = "text/html;q=0.9" := by
    unfold takeUntil
    rw [hlist, takeWhile_append_of_ne _ _ _ (by decide)]
    decide
  show takeUntil ';' (jsTrim (takeUntil ',' ("text/html;q=0.9," ++ rest)))
      = "text/html"
  rw [h1]
  decide

/-! ## C7: missing Accept header vs explicit `application/json` -/

/-- A generator that distinguishes a request with no Accept header from
one with a header: `negotiate` passes the whole request object to the
generator, which may inspect it (concrete counterexample input). -/
def headerSensitiveGen : Gen := fun request =>
  match request.accept with
  | none => GenResult.ret (some
      { status := 200, statusText := "", headers := [], body := "absent" })
  | some _ => GenResult.fault

/-- Registry registering the header-sensitive generator for
`application/json` (concrete counterexample input). -/
def headerSensitiveRegistry : Registry := fun k =>
  if k = "application/json" then some headerSensitiveGen else none

/-- C7 counterexample: the selected generator receives the request
itself, so a generator that inspects the Accept header can behave
differently on a request with no header and on the same request with
`application/json`; resolution then differs (here: a 200 versus the
matched-fault 500), refuting "resolves identically for every registry
state". -/
theorem missing_header_counterexample :
    negotiate headerSensitiveRegistry { accept := none, url := "u" }
      ≠ negotiate headerSensitiveRegistry
          { accept := some "application/json", url := "u" } := by decide

/-- C7 amended: both requests extract the preferred type
`application/json`, and whenever every registered generator returns the
same outcome on both requests (in particular whenever generators ignore
the Accept header), a request with no preference header resolves
identically to the same request carrying `application/json`. -/
theorem missing_header_amended (reg : Registry) (u : String)
    (h : ∀ k g, reg k = some g →
      g { accept := none, url := u }
        = g { accept := some "application/json", url := u }) :
    negotiate reg { accept := none, url := u }
      = negotiate reg { accept := some "application/json", url := u }
    ∧ preferredType { accept := none, url := u } = "application/json"
    ∧ preferredType { accept := some "application/json", url := u }
      = "application/json" := by
  refine ⟨?_, rfl, rfl⟩
  unfold negotiate
  rw [negotiateRun_ext reg { accept := none, url := u }
    { accept := some "application/json", url := u } rfl h]

/-- Witness for C7: on the seeded registry (whose only generator, the
built-in wildcard, ignores the request) the two requests resolve
identically. -/
theorem missing_header_amended_witness :
    negotiate seededRegistry { accept := none, url := "u" }
      = negotiate seededRegistry
          { accept := some "application/json", url := "u" }
    ∧ preferredType { accept := none, url := "u" } = "application/json" := by
  have hyp : ∀ k g, seededRegistry k = some g →
      g { accept := none, url := "u" }
        = g { accept := some "application/json", url := "u" } := by
    intro k g hk
    simp only [seededRegistry] at hk
    split at hk
    · injection hk with h'
      subst h'
      rfl
    · exact Option.noConfusion hk
  have h := missing_header_amended seededRegistry "u" hyp
  exact ⟨h.1, h.2.1⟩

/-! ## C10: empty Accept header vs absent Accept header -/

/-- A generator that distinguishes a present (possibly empty) Accept
header from an absent one (concrete counterexample input). -/
def emptySensitiveGen : Gen := fun request =>
  match request.accept with
  | some _ => GenResult.ret (some
      { status := 200, statusText := "", headers := [], body := "present" })
  | none => GenResult.fault

/-- Registry registering the empty-header-sensitive generator for
`application/json` (concrete counterexample input). -/
def emptySensitiveRegistry : Registry := fun k =>
  if k = "application/json" then some emptySensitiveGen else none

/-- C10 counterexample: a generator receiving the request can
distinguish `Accept: ""` (header present but empty) from an absent
header, so the two requests need not resolve identically (here: a 200
versus the matched-fault 500). -/
theorem empty_header_counterexample :
    negotiate emptySensitiveRegistry { accept := some "", url := "u" }
      ≠ negotiate emptySensitiveRegistry { accept := none, url := "u" } := by
  decide

/-- C10 amended: both requests default the extracted preferred type to
`application/json` (the JS `||` treats the empty string as falsy, like
the absent header), and whenever every registered generator returns the
same outcome on both requests, a request whose preference header is the
empty string resolves identically to one with no preference header. -/
theorem empty_header_amended (reg : Registry) (u : String)
    (h : ∀ k g, reg k = some g →
      g { accept := some "", url := u } = g { accept := none, url := u }) :
    negotiate reg { accept := some "", url := u }
      = negotiate reg { accept := none, url := u }
    ∧ preferredType { accept := some "", url := u } = "application/json"
    ∧ preferredType { accept := none, url := u } = "application/json" := by
  refine ⟨?_, rfl, rfl⟩
  unfold negotiate
  rw [negotiateRun_ext reg { accept := some "", url := u }
    { accept := none, url := u } rfl h]

/-- Witness for C10: on the seeded registry the two requests resolve
identically. -/
theorem empty_header_amended_witness :
    negotiate seededRegistry { accept := some "", url := "u" }
      = negotiate seededRegistry { accept := none, url := "u" }
    ∧ preferredType { accept := some "", url := "u" } = "application/json" := by
  have hyp : ∀ k g, seededRegistry k = some g →
      g { accept := some "", url := "u" } = g { accept := none, url := "u" } := by
    intro k g hk
    simp only [seededRegistry] at hk
    split at hk
    · injection hk with h'
      subst h'
      rfl
    · exact Option.noConfusion hk
  have h := empty_header_amended seededRegistry "u" hyp
  exact ⟨h.1, h.2.1⟩

end Negot
